import Mathlib

/-!
Shallow embedding of the fruit-inventory CRUD stack of this repository:
the SQLite-backed record store (`database/connection.py`, table `fruits`
with an AFTER UPDATE trigger refreshing `updated_at`), the generic
repository (`database/base_repository.py`, `database/fruit_repository.py`)
and the service layer (`services/base_service.py`,
`services/fruit_service.py`), specialised to the `Fruit` model
(`models.py`, the variant implementing `from_tuple`/`to_tuple` used by the
repository layer).

Conventions of the embedding:
* Python dictionaries are association lists (`Dict`); the first binding of
  a key is its value (real dicts have unique keys, so this is faithful).
* Dynamically typed Python values are `Value` (int, float, str, None).
  Python floats and SQLite REALs are modelled as rationals; `inf`/`nan`,
  exponent notation and whitespace in numeric strings are outside the
  modelled input space. Booleans are not modelled.
* The SQLite clock `CURRENT_TIMESTAMP` is the natural `DB.time`; every
  statement of one call sees the same clock value.
* `sqlite3` errors (unwritable medium) are not modelled: every query the
  code issues succeeds. Exceptions of the Python code become `Except.error`
  and thread the database state through, so that "the store is unchanged"
  is a provable statement rather than a modelling artifact.
-/

namespace FruitStore

/-- Dynamically typed Python value (also a SQLite cell value). -/
inductive Value where
  | vInt (n : Int)
  | vFloat (q : Rat)
  | vStr (s : String)
  | vNone
  deriving DecidableEq, Repr

/-- Python dict modelled as an association list; first binding wins. -/
abbrev Dict := List (String × Value)

/-- Dictionary key lookup (`data[k]` / `data.get(k)`). -/
def Dict.lookup (d : Dict) (k : String) : Option Value :=
  (d.find? (fun p => p.1 == k)).map Prod.snd

/-- Python `k in data`. -/
def Dict.hasKey (d : Dict) (k : String) : Bool :=
  (Dict.lookup d k).isSome

/-- Numeric value of a digit list, most significant first. -/
def digitsToNat (cs : List Char) : Nat :=
  cs.foldl (fun a c => a * 10 + (c.toNat - 48)) 0

/-- Nonempty all-decimal-digit character list. -/
def allDigits (cs : List Char) : Bool :=
  !cs.isEmpty && cs.all Char.isDigit

/-- Python `int(s)` on a string: optional sign then digits. -/
def parseIntCore (cs : List Char) : Option Int :=
  match cs with
  | '-' :: rest => if allDigits rest then some (-(digitsToNat rest : Int)) else none
  | '+' :: rest => if allDigits rest then some ((digitsToNat rest : Int)) else none
  | _ => if allDigits cs then some ((digitsToNat cs : Int)) else none

/-- Unsigned decimal literal `digits [ . digits ]`, at least one digit. -/
def parseFracCore (cs : List Char) : Option Rat :=
  let ip := cs.takeWhile Char.isDigit
  let rest := cs.dropWhile Char.isDigit
  match rest with
  | [] => if ip.isEmpty then none else some ((digitsToNat ip : Rat))
  | '.' :: fp =>
    if fp.all Char.isDigit && (!ip.isEmpty || !fp.isEmpty) then
      some ((digitsToNat ip : Rat) + (digitsToNat fp : Rat) / ((10 : Rat) ^ fp.length))
    else none
  | _ => none

/-- Python `float(s)` on a string: optional sign then a decimal literal. -/
def parseFloatCore (cs : List Char) : Option Rat :=
  match cs with
  | '-' :: rest => (parseFracCore rest).map (fun q => -q)
  | '+' :: rest => parseFracCore rest
  | _ => parseFracCore cs

/-- Python `float(v)`; `none` models the raised `ValueError`/`TypeError`.
This is also the numeric affinity SQLite applies when storing a value into
a `REAL`/`INTEGER` column (the two agree on the modelled value space). -/
def pyFloat : Value → Option Rat
  | Value.vInt n => some ((n : Rat))
  | Value.vFloat q => some q
  | Value.vStr s => parseFloatCore s.data
  | Value.vNone => none

/-- Python `int(v)`; truncates floats toward zero, parses integer strings;
`none` models the raised `ValueError`/`TypeError`. -/
def pyInt : Value → Option Int
  | Value.vInt n => some n
  | Value.vFloat q => some (q.num.tdiv (q.den : Int))
  | Value.vStr s => parseIntCore s.data
  | Value.vNone => none

/-- Row of the `fruits` table
(`id, name, price, quantity, category, image_path, created_at, updated_at`).
`quantity` is a rational because SQLite column affinity stores a
non-integral float passed for the INTEGER column as a REAL. -/
structure Row where
  id : Nat
  name : String
  price : Rat
  quantity : Rat
  category : String
  image_path : Value
  created_at : Nat
  updated_at : Nat
  deriving DecidableEq, Repr

/-- The record store: the `fruits` table, the AUTOINCREMENT counter and the
current value of `CURRENT_TIMESTAMP`. -/
structure DB where
  rows : List Row
  next_id : Nat
  time : Nat
  deriving DecidableEq, Repr

/-- The `Fruit` model object (`models.py`). `from_tuple` maps only tuple
indices 0..5, so the object never carries timestamps; the `created_at` /
`updated_at` attributes are always `None` and are omitted here (they are
also excluded from every INSERT/UPDATE column list). -/
structure Fruit where
  id : Option Int
  name : String
  price : Rat
  quantity : Rat
  category : String
  image_path : Value
  deriving DecidableEq, Repr

/-- Python exceptions raised by the modelled code. -/
inductive Err where
  | valueError (msg : String)
  | typeError (msg : String)
  deriving DecidableEq, Repr

/-- `Fruit.from_tuple` applied to a `SELECT *` row. -/
def rowToFruit (r : Row) : Fruit :=
  { id := some ((r.id : Int)), name := r.name, price := r.price,
    quantity := r.quantity, category := r.category, image_path := r.image_path }

/-- Rows matching `WHERE id = ?` in table order; the repository reads the
first one. -/
def findRow (db : DB) (i : Int) : Option Row :=
  db.rows.find? (fun r => ((r.id : Int)) == i)

/-- `BaseRepository.find_by_id`. -/
def find_by_id (db : DB) (i : Int) : Option Fruit :=
  (findRow db i).map rowToFruit

/-- `BaseRepository.find_all`. -/
def find_all (db : DB) : List Fruit :=
  db.rows.map rowToFruit

/-- `BaseRepository.exists` (`SELECT 1 ... LIMIT 1`). -/
def rowExists (db : DB) (i : Int) : Bool :=
  (findRow db i).isSome

/-- Row written by the INSERT of `BaseRepository.create`: the columns come
from `model.to_tuple()` (which omits `id`, so a caller-supplied id never
reaches the INSERT), `id` is assigned by AUTOINCREMENT and `created_at` /
`updated_at` take their DEFAULT `CURRENT_TIMESTAMP`. -/
def insertedRow (db : DB) (m : Fruit) : Row :=
  { id := db.next_id, name := m.name, price := m.price, quantity := m.quantity,
    category := m.category, image_path := m.image_path,
    created_at := db.time, updated_at := db.time }

/-- `BaseRepository.create`: append the inserted row (the table keeps
insertion order), advance the AUTOINCREMENT counter, and return
`find_by_id(cursor.lastrowid)`. -/
def repoCreate (db : DB) (m : Fruit) : Option Fruit × DB :=
  let db2 : DB := { db with rows := db.rows ++ [insertedRow db m], next_id := db.next_id + 1 }
  (find_by_id db2 ((db.next_id : Int)), db2)

/-- Effect of `UPDATE fruits SET name = ?, price = ?, quantity = ?,
category = ?, image_path = ? WHERE id = ?` followed by the
`update_fruits_timestamp` trigger on one row. -/
def writeRow (m : Fruit) (t : Nat) (mid : Int) (x : Row) : Row :=
  if ((x.id : Int)) == mid then
    { x with name := m.name, price := m.price, quantity := m.quantity,
             category := m.category, image_path := m.image_path,
             updated_at := t }
  else x

/-- `BaseRepository.update`: requires `model.id`, rewrites the mutable
columns of every row matching `WHERE id = model.id`; the AFTER UPDATE
trigger refreshes `updated_at` of each matched row; returns
`find_by_id(model.id)`. -/
def repoUpdate (db : DB) (m : Fruit) : Except Err (Option Fruit) × DB :=
  match m.id with
  | none => (.error (.valueError "Model must have an ID to be updated"), db)
  | some mid =>
    let db2 : DB := { db with rows := db.rows.map (writeRow m db.time mid) }
    (.ok (find_by_id db2 mid), db2)

/-- `BaseRepository.delete`: `DELETE ... WHERE id = ?`, result is
`cursor.rowcount > 0`. -/
def repoDelete (db : DB) (i : Int) : Bool × DB :=
  let remaining := db.rows.filter (fun r => !(((r.id : Int)) == i))
  (remaining.length < db.rows.length, { db with rows := remaining })

/-- Effect of `UPDATE fruits SET quantity = ? WHERE id = ?` followed by
the `update_fruits_timestamp` trigger on one row. -/
def setStock (i : Int) (q : Rat) (t : Nat) (x : Row) : Row :=
  if ((x.id : Int)) == i then { x with quantity := q, updated_at := t } else x

/-- `FruitRepository.update_stock`: `UPDATE fruits SET quantity = ? WHERE
id = ?` (trigger refreshes `updated_at` of matched rows), then
`find_by_id`. -/
def update_stock (db : DB) (i : Int) (newQ : Rat) : Option Fruit × DB :=
  let db2 : DB := { db with rows := db.rows.map (setStock i newQ db.time) }
  (find_by_id db2 i, db2)

/-- `FruitRepository.adjust_stock`: read the current quantity, raise
`ValueError` when the adjusted quantity would be negative, otherwise
delegate to `update_stock`. -/
def repoAdjustStock (db : DB) (i : Int) (adj : Int) : Except Err (Option Fruit) × DB :=
  match find_by_id db i with
  | none => (.ok none, db)
  | some fruit =>
    let newQ := fruit.quantity + ((adj : Rat))
    if newQ < 0 then
      (.error (.valueError "Stock adjustment would result in negative quantity"), db)
    else
      let res := update_stock db i newQ
      (.ok res.1, res.2)

/-- SQL `SUM` over a column expression: NULL (`none`) on an empty table. -/
def sqlSum (xs : List Rat) : Option Rat :=
  if xs.isEmpty then none else some xs.sum

/-- `FruitRepository.get_total_inventory_value`:
`SELECT SUM(price * quantity) FROM fruits`, with NULL mapped to `0.0`. -/
def get_total_inventory_value (db : DB) : Rat :=
  match sqlSum (db.rows.map (fun r => r.price * r.quantity)) with
  | some v => v
  | none => 0

/-- `FruitRepository.find_low_stock`:
`SELECT * FROM fruits WHERE quantity < ?`. -/
def find_low_stock (db : DB) (threshold : Int) : List Fruit :=
  (db.rows.filter (fun r => r.quantity < ((threshold : Rat)))).map rowToFruit

/-- Required creation fields, `FruitService._get_required_fields`. -/
def requiredFields : List String :=
  ["name", "category", "price", "quantity"]

/-- `BaseService._validate_model_data` (non-update part): raise when a
required field is absent. -/
def checkRequired (data : Dict) : Except Err Unit :=
  if (requiredFields.filter (fun f => !(Dict.hasKey data f))).isEmpty then .ok ()
  else .error (.valueError "Missing required fields")

/-- Name rule of `FruitService._validate_model_data`: when present, `name`
must be a string of length at least 2. -/
def checkName (data : Dict) : Except Err Unit :=
  match Dict.lookup data "name" with
  | none => .ok ()
  | some (Value.vStr s) =>
    if s.length < 2 then .error (.valueError "Name must be a string with at least 2 characters")
    else .ok ()
  | some _ => .error (.valueError "Name must be a string with at least 2 characters")

/-- Category rule of `FruitService._validate_model_data`. -/
def checkCategory (data : Dict) : Except Err Unit :=
  match Dict.lookup data "category" with
  | none => .ok ()
  | some (Value.vStr s) =>
    if s.length < 2 then .error (.valueError "Category must be a string with at least 2 characters")
    else .ok ()
  | some _ => .error (.valueError "Category must be a string with at least 2 characters")

/-- Price rule of `FruitService._validate_model_data`: `float(price)` must
succeed and be non-negative. The negative case raises inside the `try`
block, so the `except` clause replaces its message with the generic one. -/
def checkPrice (data : Dict) : Except Err Unit :=
  match Dict.lookup data "price" with
  | none => .ok ()
  | some v =>
    match pyFloat v with
    | none => .error (.valueError "Price must be a valid number")
    | some q => if q < 0 then .error (.valueError "Price must be a valid number") else .ok ()

/-- Quantity rule of `FruitService._validate_model_data`: `int(quantity)`
must succeed and be non-negative. -/
def checkQuantity (data : Dict) : Except Err Unit :=
  match Dict.lookup data "quantity" with
  | none => .ok ()
  | some v =>
    match pyInt v with
    | none => .error (.valueError "Quantity must be a valid integer")
    | some n => if n < 0 then .error (.valueError "Quantity must be a valid integer") else .ok ()

/-- `FruitService._validate_model_data`: the base required-fields check
(skipped on update), then the four field rules in source order. -/
def validateFruitData (data : Dict) (update : Bool) : Except Err Unit :=
  match (if update then .ok () else checkRequired data) with
  | .error e => .error e
  | .ok _ =>
    match checkName data with
    | .error e => .error e
    | .ok _ =>
      match checkCategory data with
      | .error e => .error e
      | .ok _ =>
        match checkPrice data with
        | .error e => .error e
        | .ok _ => checkQuantity data

/-- Attribute names of the `Fruit` dataclass; `cls(**data)` rejects any
other keyword with a `TypeError`. -/
def fruitFieldNames : List String :=
  ["name", "price", "quantity", "category", "id", "image_path", "created_at", "updated_at"]

/-- `Fruit.from_dict(data)`, i.e. `cls(**data)`: fails on unknown keywords
or missing non-default fields. The numeric fields hold the numeric value
of the raw datum (the SQLite affinity applied when the value is stored;
validation has already ruled out non-numeric data on every live path), and
non-integral values at the `id` key are outside the modelled input space.
Timestamp keywords only set attributes that no INSERT/UPDATE reads, so
they are dropped. -/
def fruitFromDict (data : Dict) : Except Err Fruit :=
  if data.any (fun p => !(fruitFieldNames.contains p.1)) then
    .error (.typeError "unexpected keyword argument")
  else if !(Dict.hasKey data "name" && Dict.hasKey data "price" &&
            Dict.hasKey data "quantity" && Dict.hasKey data "category") then
    .error (.typeError "missing required positional argument")
  else
    .ok {
      id := match Dict.lookup data "id" with
            | some (Value.vInt n) => some n
            | _ => none,
      name := match Dict.lookup data "name" with
              | some (Value.vStr s) => s
              | _ => "",
      price := ((Dict.lookup data "price").bind pyFloat).getD 0,
      quantity := ((Dict.lookup data "quantity").bind pyFloat).getD 0,
      category := match Dict.lookup data "category" with
                  | some (Value.vStr s) => s
                  | _ => "",
      image_path := (Dict.lookup data "image_path").getD Value.vNone }

/-- The `setattr` loop of `BaseService.update`: every key of `data` that is
an attribute of the loaded model overwrites that attribute with the raw
value; unknown keys are skipped (`hasattr` is false). Numeric fields hold
the numeric value as in `fruitFromDict`; timestamp keys set attributes
nothing reads. -/
def applyFruitFields (m : Fruit) (data : Dict) : Fruit :=
  { id := match Dict.lookup data "id" with
          | some (Value.vInt n) => some n
          | some Value.vNone => none
          | some _ => m.id
          | none => m.id,
    name := match Dict.lookup data "name" with
            | some (Value.vStr s) => s
            | some _ => m.name
            | none => m.name,
    price := match (Dict.lookup data "price").bind pyFloat with
             | some q => q
             | none => m.price,
    quantity := match (Dict.lookup data "quantity").bind pyFloat with
                | some q => q
                | none => m.quantity,
    category := match Dict.lookup data "category" with
                | some (Value.vStr s) => s
                | some _ => m.category
                | none => m.category,
    image_path := match Dict.lookup data "image_path" with
                  | some v => v
                  | none => m.image_path }

/-- `BaseService.get_by_id` (inherited by `FruitService`): rejects a
non-positive id, otherwise a pure read. -/
def svcGetById (db : DB) (i : Int) : Except Err (Option Fruit) :=
  if i ≤ 0 then .error (.valueError "Invalid ID")
  else .ok (find_by_id db i)

/-- `BaseService.get_all`. -/
def svcGetAll (db : DB) : List Fruit :=
  find_all db

/-- `BaseService.create` with the `FruitService` validation: validate,
build the model from the dict, insert, and fail if the re-read comes back
empty. -/
def svcCreate (db : DB) (data : Dict) : Except Err Fruit × DB :=
  match validateFruitData data false with
  | .error e => (.error e, db)
  | .ok _ =>
    match fruitFromDict data with
    | .error e => (.error e, db)
    | .ok m =>
      let res := repoCreate db m
      match res.1 with
      | none => (.error (.valueError "Failed to create Fruit"), res.2)
      | some f => (.ok f, res.2)

/-- `BaseService.update` with the `FruitService` validation: id check, load
(None when missing), validate the partial data, `setattr` loop, repository
update, and failure if the re-read comes back empty. -/
def svcUpdate (db : DB) (i : Int) (data : Dict) : Except Err (Option Fruit) × DB :=
  if i ≤ 0 then (.error (.valueError "Invalid ID"), db)
  else
    match find_by_id db i with
    | none => (.ok none, db)
    | some existing =>
      match validateFruitData data true with
      | .error e => (.error e, db)
      | .ok _ =>
        let m := applyFruitFields existing data
        match repoUpdate db m with
        | (.error e, db2) => (.error e, db2)
        | (.ok none, db2) => (.error (.valueError "Failed to update Fruit"), db2)
        | (.ok (some f), db2) => (.ok (some f), db2)

/-- `BaseService.delete`: id check, `exists` probe, then the repository
delete. -/
def svcDelete (db : DB) (i : Int) : Except Err Bool × DB :=
  if i ≤ 0 then (.error (.valueError "Invalid ID"), db)
  else if rowExists db i then
    let res := repoDelete db i
    (.ok res.1, res.2)
  else (.ok false, db)

/-- `FruitService.update_stock`: validates the id and the new quantity
(a non-negative machine integer), probes existence through `get_by_id`,
then delegates to the repository. -/
def svcUpdateStock (db : DB) (i : Int) (newQ : Int) : Except Err (Option Fruit) × DB :=
  if i ≤ 0 then (.error (.valueError "Fruit ID must be a positive integer"), db)
  else if newQ < 0 then (.error (.valueError "Quantity must be a non-negative integer"), db)
  else
    match find_by_id db i with
    | none => (.ok none, db)
    | some _ =>
      let res := update_stock db i ((newQ : Rat))
      (.ok res.1, res.2)

/-- `FruitService.adjust_stock`: validates the id (the adjustment is an
integer by the type of `adj`), then delegates to the repository. -/
def svcAdjustStock (db : DB) (i : Int) (adj : Int) : Except Err (Option Fruit) × DB :=
  if i ≤ 0 then (.error (.valueError "Fruit ID must be a positive integer"), db)
  else repoAdjustStock db i adj

/-- `FruitService.get_low_stock_fruits`: the threshold must be a Python
int (`isinstance(threshold, int)`) and non-negative. -/
def svcLowStock (db : DB) (threshold : Value) : Except Err (List Fruit) :=
  match threshold with
  | Value.vInt n =>
    if n < 0 then .error (.valueError "Threshold must be a non-negative integer")
    else .ok (find_low_stock db n)
  | _ => .error (.valueError "Threshold must be a non-negative integer")

/-- `FruitService.get_total_inventory_value`: passthrough to the
repository. -/
def svcTotalValue (db : DB) : Rat :=
  get_total_inventory_value db

/-- Wellformedness of the store: live ids are positive, below the
AUTOINCREMENT counter and pairwise distinct, and timestamps satisfy
`created_at ≤ updated_at ≤ now`. -/
def WF (db : DB) : Prop :=
  1 ≤ db.next_id ∧
  (∀ r ∈ db.rows, 1 ≤ r.id ∧ r.id < db.next_id) ∧
  (db.rows.map Row.id).Nodup ∧
  (∀ r ∈ db.rows, r.created_at ≤ r.updated_at ∧ r.updated_at ≤ db.time)

instance : DecidablePred WF := fun db => by
  unfold WF; infer_instance

/-! Helper lemmas about row lookup and the row transformers. -/

theorem find_id_of_mem (l : List Row) (r : Row)
    (hnd : (l.map Row.id).Nodup) (hr : r ∈ l) :
    l.find? (fun x => ((x.id : Int)) == ((r.id : Int))) = some r := by
  induction l with
  | nil => cases hr
  | cons a t ih =>
    rw [List.map_cons, List.nodup_cons] at hnd
    rcases List.mem_cons.mp hr with h | h
    · subst h
      exact List.find?_cons_of_pos _ (by simp)
    · have hne : ¬ ((((a.id : Int)) == ((r.id : Int))) = true) := by
        simp only [beq_iff_eq, Nat.cast_inj]
        intro he
        exact hnd.1 (he ▸ List.mem_map_of_mem Row.id h)
      exact (List.find?_cons_of_neg t hne).trans (ih hnd.2 h)

theorem findRow_of_mem (db : DB) (r : Row)
    (hnd : (db.rows.map Row.id).Nodup) (hr : r ∈ db.rows) :
    findRow db ((r.id : Int)) = some r :=
  find_id_of_mem db.rows r hnd hr

theorem find_id_map (g : Row → Row) (hg : ∀ x, (g x).id = x.id)
    (l : List Row) (i : Int) :
    (l.map g).find? (fun x => ((x.id : Int)) == i) =
      (l.find? (fun x => ((x.id : Int)) == i)).map g := by
  rw [List.find?_map]
  have hp : ((fun x => ((x.id : Int)) == i) ∘ g) = (fun x => ((x.id : Int)) == i) := by
    funext x
    simp [Function.comp, hg]
  rw [hp]

theorem map_id_of_preserve (g : Row → Row) (hg : ∀ x, (g x).id = x.id)
    (l : List Row) :
    (l.map g).map Row.id = l.map Row.id := by
  rw [List.map_map]
  have : Row.id ∘ g = Row.id := funext hg
  rw [this]

theorem setStock_id (i : Int) (q : Rat) (t : Nat) (x : Row) :
    (setStock i q t x).id = x.id := by
  unfold setStock
  split <;> rfl

theorem writeRow_id (m : Fruit) (t : Nat) (mid : Int) (x : Row) :
    (writeRow m t mid x).id = x.id := by
  unfold writeRow
  split <;> rfl

theorem setStock_created (i : Int) (q : Rat) (t : Nat) (x : Row) :
    (setStock i q t x).created_at = x.created_at := by
  unfold setStock
  split <;> rfl

theorem writeRow_created (m : Fruit) (t : Nat) (mid : Int) (x : Row) :
    (writeRow m t mid x).created_at = x.created_at := by
  unfold writeRow
  split <;> rfl

theorem length_filter_lt_of_mem (l : List Row) (r : Row) (p : Row → Bool)
    (hr : r ∈ l) (hp : p r = false) :
    (l.filter p).length < l.length := by
  induction l with
  | nil => cases hr
  | cons a t ih =>
    rcases List.mem_cons.mp hr with h | h
    · subst h
      simp only [List.filter_cons, hp, Bool.false_eq_true, if_false, List.length_cons]
      exact Nat.lt_succ_of_le (List.length_filter_le _ _)
    · by_cases hpa : p a = true
      · simp only [List.filter_cons, hpa, if_true, List.length_cons]
        exact Nat.succ_lt_succ (ih h)
      · simp only [List.filter_cons, hpa, if_false, List.length_cons]
        exact Nat.lt_succ_of_lt (ih h)

theorem update_stock_eq (db : DB) (r : Row) (q : Rat)
    (hnd : (db.rows.map Row.id).Nodup) (hr : r ∈ db.rows) :
    update_stock db ((r.id : Int)) q =
      (some (rowToFruit { r with quantity := q, updated_at := db.time }),
       { db with rows := db.rows.map (setStock ((r.id : Int)) q db.time) }) := by
  rw [Prod.ext_iff]
  refine ⟨?_, rfl⟩
  show find_by_id { db with rows := db.rows.map (setStock ((r.id : Int)) q db.time) } ((r.id : Int)) = _
  unfold find_by_id findRow
  rw [find_id_map _ (setStock_id _ _ _) db.rows, find_id_of_mem db.rows r hnd hr]
  simp [setStock]

theorem adjust_stock_ok (db : DB) (r : Row) (d : Int)
    (hnd : (db.rows.map Row.id).Nodup) (hr : r ∈ db.rows)
    (hge : 0 ≤ r.quantity + ((d : Rat))) :
    repoAdjustStock db ((r.id : Int)) d =
      (.ok (some (rowToFruit { r with quantity := r.quantity + ((d : Rat)), updated_at := db.time })),
       { db with rows := db.rows.map (setStock ((r.id : Int)) (r.quantity + ((d : Rat))) db.time) }) := by
  unfold repoAdjustStock find_by_id
  rw [findRow_of_mem db r hnd hr]
  simp only [Option.map_some']
  rw [if_neg (by simpa [rowToFruit] using not_lt.mpr hge)]
  rw [show (rowToFruit r).quantity = r.quantity from rfl]
  rw [update_stock_eq db r _ hnd hr]

theorem adjust_stock_neg (db : DB) (r : Row) (d : Int)
    (hnd : (db.rows.map Row.id).Nodup) (hr : r ∈ db.rows)
    (hlt : r.quantity + ((d : Rat)) < 0) :
    repoAdjustStock db ((r.id : Int)) d =
      (.error (.valueError "Stock adjustment would result in negative quantity"), db) := by
  unfold repoAdjustStock find_by_id
  rw [findRow_of_mem db r hnd hr]
  simp only [Option.map_some']
  rw [if_pos (by simpa [rowToFruit] using hlt)]

theorem row_id_pos_int (db : DB) (r : Row) (hwf : WF db) (hr : r ∈ db.rows) :
    ¬ ((r.id : Int)) ≤ 0 := by
  have h1 := (hwf.2.1 r hr).1
  omega

theorem setStock_self (r : Row) (q : Rat) (t : Nat) :
    setStock ((r.id : Int)) q t r = { r with quantity := q, updated_at := t } := by
  unfold setStock
  rw [if_pos (by simp)]

theorem WF_map_setStock (db : DB) (i : Int) (q : Rat) (hwf : WF db) :
    WF { db with rows := db.rows.map (setStock i q db.time) } := by
  obtain ⟨h1, h2, h3, h4⟩ := hwf
  refine ⟨h1, ?_, ?_, ?_⟩
  · intro x hx
    obtain ⟨y, hy, rfl⟩ := List.mem_map.mp hx
    rw [setStock_id]
    exact h2 y hy
  · rw [map_id_of_preserve _ (setStock_id i q db.time)]
    exact h3
  · intro x hx
    obtain ⟨y, hy, rfl⟩ := List.mem_map.mp hx
    unfold setStock
    split
    · exact ⟨le_trans (h4 y hy).1 (h4 y hy).2, le_refl _⟩
    · exact h4 y hy

theorem svc_adjust_ok (db : DB) (r : Row) (i d : Int)
    (hwf : WF db) (hr : r ∈ db.rows) (hid : ((r.id : Int)) = i)
    (hge : 0 ≤ r.quantity + ((d : Rat))) :
    svcAdjustStock db i d =
      (.ok (some (rowToFruit { r with quantity := r.quantity + ((d : Rat)), updated_at := db.time })),
       { db with rows := db.rows.map (setStock i (r.quantity + ((d : Rat))) db.time) }) := by
  subst hid
  unfold svcAdjustStock
  rw [if_neg (row_id_pos_int db r hwf hr)]
  exact adjust_stock_ok db r d hwf.2.2.1 hr hge

/-! Claim theorems. -/

/-- C1: for every stored fruit with id `i` and quantity `q`, and every
integer `delta` with `q + delta < 0`, `adjustStock(i, delta)` fails with
the negative-quantity `ValueError` (the spec's `ValidationError`) and the
store — in particular the record's quantity — is unchanged. -/
theorem C1_adjust_stock_rejects_negative (db : DB) (r : Row) (i d : Int)
    (hwf : WF db) (hr : r ∈ db.rows) (hid : ((r.id : Int)) = i)
    (hneg : r.quantity + ((d : Rat)) < 0) :
    svcAdjustStock db i d =
      (.error (.valueError "Stock adjustment would result in negative quantity"), db) ∧
    find_by_id (svcAdjustStock db i d).2 i = some (rowToFruit r) := by
  subst hid
  have hipos := row_id_pos_int db r hwf hr
  have hmain : svcAdjustStock db ((r.id : Int)) d =
      (.error (.valueError "Stock adjustment would result in negative quantity"), db) := by
    unfold svcAdjustStock
    rw [if_neg hipos]
    exact adjust_stock_neg db r d hwf.2.2.1 hr hneg
  refine ⟨hmain, ?_⟩
  rw [hmain]
  unfold find_by_id
  rw [findRow_of_mem db r hwf.2.2.1 hr]
  rfl

/-- Fixture row for witnesses: the spec scenario record with quantity
100. -/
def wRow1 : Row :=
  { id := 1, name := "Apple", price := 199/100, quantity := 100,
    category := "Fresh Fruits", image_path := Value.vNone,
    created_at := 0, updated_at := 0 }

/-- Fixture store holding only `wRow1`. -/
def wDB1 : DB := { rows := [wRow1], next_id := 2, time := 1 }

/-- Witness for C1 at the spec scenario: `adjustStock(1, -150)` on a
record with quantity 100. -/
theorem C1_adjust_stock_rejects_negative_witness :
    (WF wDB1 ∧ wRow1 ∈ wDB1.rows ∧ ((wRow1.id : Int)) = 1 ∧
      wRow1.quantity + (((-150 : Int) : Rat)) < 0) ∧
    (svcAdjustStock wDB1 1 (-150) =
      (.error (.valueError "Stock adjustment would result in negative quantity"), wDB1) ∧
     find_by_id (svcAdjustStock wDB1 1 (-150)).2 1 = some (rowToFruit wRow1)) :=
  ⟨⟨by decide, List.mem_singleton.mpr rfl, rfl, by norm_num [wRow1]⟩,
   C1_adjust_stock_rejects_negative wDB1 wRow1 1 (-150) (by decide)
     (List.mem_singleton.mpr rfl) rfl (by norm_num [wRow1])⟩

/-- C4: for every stored fruit with id `i` and (non-negative, per the data
model) quantity `q` and every integer `delta` with `q + delta ≥ 0`,
`adjustStock(i, delta)` followed by `adjustStock(i, -delta)` succeeds and
returns the stored quantity to `q`. -/
theorem C4_adjust_stock_round_trip (db : DB) (r : Row) (i d : Int)
    (hwf : WF db) (hr : r ∈ db.rows) (hid : ((r.id : Int)) = i)
    (hq : 0 ≤ r.quantity) (hmid : 0 ≤ r.quantity + ((d : Rat))) :
    ∃ f1 db1 f2 db2,
      svcAdjustStock db i d = (.ok (some f1), db1) ∧
      svcAdjustStock db1 i (-d) = (.ok (some f2), db2) ∧
      f2.quantity = r.quantity ∧
      ∃ r2 ∈ db2.rows, ((r2.id : Int)) = i ∧ r2.quantity = r.quantity := by
  subst hid
  have h1 := svc_adjust_ok db r ((r.id : Int)) d hwf hr rfl hmid
  have hwf1 : WF { db with rows := db.rows.map (setStock ((r.id : Int)) (r.quantity + ((d : Rat))) db.time) } :=
    WF_map_setStock db _ _ hwf
  have hr1mem : ({ r with quantity := r.quantity + ((d : Rat)), updated_at := db.time } : Row) ∈
      db.rows.map (setStock ((r.id : Int)) (r.quantity + ((d : Rat))) db.time) := by
    rw [← setStock_self r (r.quantity + ((d : Rat))) db.time]
    exact List.mem_map_of_mem _ hr
  have hcanc : r.quantity + ((d : Rat)) + (((-d : Int) : Rat)) = r.quantity := by
    push_cast
    ring
  have hge2 : 0 ≤ ({ r with quantity := r.quantity + ((d : Rat)), updated_at := db.time } : Row).quantity + (((-d : Int) : Rat)) := by
    show 0 ≤ r.quantity + ((d : Rat)) + (((-d : Int) : Rat))
    rw [hcanc]
    exact hq
  have h2 := svc_adjust_ok
    { db with rows := db.rows.map (setStock ((r.id : Int)) (r.quantity + ((d : Rat))) db.time) }
    { r with quantity := r.quantity + ((d : Rat)), updated_at := db.time }
    ((r.id : Int)) (-d) hwf1 hr1mem rfl hge2
  refine ⟨_, _, _, _, h1, h2, ?_, ?_⟩
  · show r.quantity + ((d : Rat)) + (((-d : Int) : Rat)) = r.quantity
    exact hcanc
  · refine ⟨setStock ((r.id : Int))
      (({ r with quantity := r.quantity + ((d : Rat)), updated_at := db.time } : Row).quantity + (((-d : Int) : Rat)))
      db.time { r with quantity := r.quantity + ((d : Rat)), updated_at := db.time }, ?_, ?_, ?_⟩
    · exact List.mem_map_of_mem _ hr1mem
    · rw [setStock_id]
    · unfold setStock
      rw [if_pos (by simp)]
      exact hcanc

/-- Witness for C4: quantity 100, delta 30, on the fixture store. -/
theorem C4_adjust_stock_round_trip_witness :
    (WF wDB1 ∧ wRow1 ∈ wDB1.rows ∧ ((wRow1.id : Int)) = 1 ∧
      (0 : Rat) ≤ wRow1.quantity ∧ 0 ≤ wRow1.quantity + (((30 : Int) : Rat))) ∧
    (∃ f1 db1 f2 db2,
      svcAdjustStock wDB1 1 30 = (.ok (some f1), db1) ∧
      svcAdjustStock db1 1 (-30) = (.ok (some f2), db2) ∧
      f2.quantity = wRow1.quantity ∧
      ∃ r2 ∈ db2.rows, ((r2.id : Int)) = 1 ∧ r2.quantity = wRow1.quantity) :=
  ⟨⟨by decide, List.mem_singleton.mpr rfl, rfl, by norm_num [wRow1], by norm_num [wRow1]⟩,
   C4_adjust_stock_round_trip wDB1 wRow1 1 30 (by decide) (List.mem_singleton.mpr rfl) rfl
     (by norm_num [wRow1]) (by norm_num [wRow1])⟩

/-- Fixture: the empty store just after `create_tables`. -/
def dbEmpty : DB := { rows := [], next_id := 1, time := 0 }

/-- C7: `getTotalInventoryValue()` equals the sum of `price × quantity`
over `getAll()`, for every store state, and equals 0 when the store holds
no records. -/
theorem C7_total_inventory_value (db : DB) :
    svcTotalValue db = ((svcGetAll db).map (fun f => f.price * f.quantity)).sum ∧
    (db.rows = [] → svcTotalValue db = 0) := by
  have hmap : (svcGetAll db).map (fun f => f.price * f.quantity) =
      db.rows.map (fun r => r.price * r.quantity) := by
    unfold svcGetAll find_all
    rw [List.map_map]
    rfl
  constructor
  · rw [hmap]
    unfold svcTotalValue get_total_inventory_value sqlSum
    rcases h : db.rows with _ | ⟨a, t⟩ <;> simp
  · intro h
    unfold svcTotalValue get_total_inventory_value sqlSum
    rw [h]
    simp

/-- Witness for C7: evaluated on the one-row fixture and on the empty
store. -/
theorem C7_total_inventory_value_witness :
    svcTotalValue wDB1 = ((svcGetAll wDB1).map (fun f => f.price * f.quantity)).sum ∧
    svcTotalValue dbEmpty = 0 :=
  ⟨(C7_total_inventory_value wDB1).1, (C7_total_inventory_value dbEmpty).2 rfl⟩

/-- C8: a successful `delete(i)` makes `getById(i)` return `None` and a
second `delete(i)` return `false`; `delete(i)` on an id (a positive
integer, per the data model) with no record returns `false` and leaves the
store unchanged. -/
theorem C8_delete_semantics (db : DB) (i : Int) (hi : 0 < i) :
    (∀ b db2, svcDelete db i = (.ok b, db2) →
       b = true → svcGetById db2 i = .ok none ∧ svcDelete db2 i = (.ok false, db2)) ∧
    ((∀ r ∈ db.rows, ((r.id : Int)) ≠ i) → svcDelete db i = (.ok false, db)) := by
  have hile : ¬ i ≤ 0 := not_le.mpr hi
  constructor
  · intro b db2 hdel hb
    subst hb
    have hnone : findRow db2 i = none := by
      unfold svcDelete at hdel
      rw [if_neg hile] at hdel
      by_cases hex : rowExists db i = true
      · rw [if_pos hex] at hdel
        have hdb2 : db2 = { db with rows := db.rows.filter (fun r => !(((r.id : Int)) == i)) } :=
          (congrArg Prod.snd hdel).symm
        subst hdb2
        unfold findRow
        rw [List.find?_eq_none]
        intro x hx
        have := (List.mem_filter.mp hx).2
        simp only [Bool.not_eq_true'] at this
        simp [this]
      · rw [if_neg hex] at hdel
        cases hdel
    constructor
    · unfold svcGetById
      rw [if_neg hile]
      unfold find_by_id
      rw [hnone]
      rfl
    · unfold svcDelete
      rw [if_neg hile]
      rw [if_neg (by unfold rowExists; rw [hnone]; simp)]
  · intro habs
    unfold svcDelete
    rw [if_neg hile]
    rw [if_neg (by
      unfold rowExists findRow
      rw [List.find?_eq_none.mpr ?_]
      · simp
      · intro x hx
        simp [habs x hx])]

/-- Witness for C8: a successful delete of id 1 on the fixture store, then
the failing re-delete, and the no-record case at id 7. -/
theorem C8_delete_semantics_witness :
    ((∀ b db2, svcDelete wDB1 1 = (.ok b, db2) →
       b = true → svcGetById db2 1 = .ok none ∧ svcDelete db2 1 = (.ok false, db2)) ∧
     ((∀ r ∈ wDB1.rows, ((r.id : Int)) ≠ 1) → svcDelete wDB1 1 = (.ok false, wDB1))) ∧
    ((∀ b db2, svcDelete wDB1 7 = (.ok b, db2) →
       b = true → svcGetById db2 7 = .ok none ∧ svcDelete db2 7 = (.ok false, db2)) ∧
     ((∀ r ∈ wDB1.rows, ((r.id : Int)) ≠ 7) → svcDelete wDB1 7 = (.ok false, wDB1))) :=
  ⟨C8_delete_semantics wDB1 1 (by decide),
   C8_delete_semantics wDB1 7 (by decide)⟩

/-- C10: for a non-negative Python-int threshold `t`,
`get_low_stock_fruits(t)` returns exactly the stored fruits with quantity
strictly below `t` (one with quantity equal to `t` is excluded); a
negative or non-int threshold raises `ValueError`. -/
theorem C10_low_stock (db : DB) (t : Value) :
    (∀ n : Int, t = Value.vInt n → 0 ≤ n →
       ∃ l, svcLowStock db t = .ok l ∧
         l = (db.rows.filter (fun r => r.quantity < ((n : Rat)))).map rowToFruit ∧
         (∀ r ∈ db.rows, (rowToFruit r ∈ l ↔ r.quantity < ((n : Rat))))) ∧
    (∀ n : Int, t = Value.vInt n → n < 0 →
       svcLowStock db t = .error (.valueError "Threshold must be a non-negative integer")) ∧
    ((∀ n : Int, t ≠ Value.vInt n) →
       svcLowStock db t = .error (.valueError "Threshold must be a non-negative integer")) := by
  refine ⟨?_, ?_, ?_⟩
  · rintro n rfl hn
    refine ⟨find_low_stock db n, ?_, rfl, ?_⟩
    · show (if n < 0 then Except.error (Err.valueError "Threshold must be a non-negative integer")
          else Except.ok (find_low_stock db n)) = Except.ok (find_low_stock db n)
      rw [if_neg (not_lt.mpr hn)]
    · intro r hr
      constructor
      · intro hmem
        obtain ⟨r2, hr2, heq⟩ := List.mem_map.mp hmem
        have hq2 : r2.quantity < ((n : Rat)) := by
          have := (List.mem_filter.mp hr2).2
          simpa using this
        have : r2.quantity = r.quantity := congrArg Fruit.quantity heq
        rwa [this] at hq2
      · intro hq
        exact List.mem_map_of_mem _ (List.mem_filter.mpr ⟨hr, by simpa using hq⟩)
  · rintro n rfl hn
    show (if n < 0 then Except.error (Err.valueError "Threshold must be a non-negative integer")
        else Except.ok (find_low_stock db n)) =
      Except.error (Err.valueError "Threshold must be a non-negative integer")
    rw [if_pos hn]
  · intro h
    cases t with
    | vInt n => exact absurd rfl (h n)
    | vFloat q => rfl
    | vStr s => rfl
    | vNone => rfl

/-- Witness for C10: threshold 60 on a store with quantities 100 and 50
(only the latter is below), threshold -1, and a float threshold. -/
theorem C10_low_stock_witness :
    ((∃ l, svcLowStock wDB1 (Value.vInt 60) = .ok l ∧
        l = (wDB1.rows.filter (fun r => r.quantity < (((60 : Int) : Rat)))).map rowToFruit ∧
        (∀ r ∈ wDB1.rows, (rowToFruit r ∈ l ↔ r.quantity < (((60 : Int) : Rat))))) ∧
     svcLowStock wDB1 (Value.vInt (-1)) =
       .error (.valueError "Threshold must be a non-negative integer")) ∧
    svcLowStock wDB1 (Value.vFloat (1/2)) =
      .error (.valueError "Threshold must be a non-negative integer") :=
  ⟨⟨(C10_low_stock wDB1 (Value.vInt 60)).1 60 rfl (by decide),
    (C10_low_stock wDB1 (Value.vInt (-1))).2.1 (-1) rfl (by decide)⟩,
   (C10_low_stock wDB1 (Value.vFloat (1/2))).2.2 (by intro n h; cases h)⟩

theorem find_append_new (db : DB) (row : Row) (hwf : WF db) (hid : row.id = db.next_id) :
    (db.rows ++ [row]).find? (fun x => ((x.id : Int)) == ((db.next_id : Int))) = some row := by
  rw [List.find?_append]
  have h1 : db.rows.find? (fun x => ((x.id : Int)) == ((db.next_id : Int))) = none := by
    rw [List.find?_eq_none]
    intro x hx
    have := (hwf.2.1 x hx).2
    simp only [beq_iff_eq, Nat.cast_inj]
    omega
  rw [h1]
  simp [List.find?, hid]

theorem repoCreate_eq (db : DB) (m : Fruit) (hwf : WF db) :
    repoCreate db m =
      (some (rowToFruit (insertedRow db m)),
       { db with rows := db.rows ++ [insertedRow db m], next_id := db.next_id + 1 }) := by
  unfold repoCreate find_by_id findRow
  rw [Prod.ext_iff]
  refine ⟨?_, rfl⟩
  show ((db.rows ++ [insertedRow db m]).find? (fun x => ((x.id : Int)) == ((db.next_id : Int)))).map rowToFruit = _
  rw [find_append_new db (insertedRow db m) hwf rfl]
  rfl

/-- C6: for every valid creation input (one `create` accepts), the
returned record's id is the store-assigned `next_id` — positive, distinct
from every live record's id, and independent of any caller-supplied `id`
in the input, which never reaches the INSERT — and the stored row has
`created_at = updated_at`. -/
theorem C6_create_assigns_id (db : DB) (data : Dict) (f : Fruit) (db2 : DB)
    (hwf : WF db) (h : svcCreate db data = (.ok f, db2)) :
    f.id = some ((db.next_id : Int)) ∧ 0 < db.next_id ∧
    (∀ r ∈ db.rows, r.id ≠ db.next_id) ∧
    ∃ r2 ∈ db2.rows, rowToFruit r2 = f ∧ r2.id = db.next_id ∧
      r2.created_at = r2.updated_at := by
  unfold svcCreate at h
  cases hval : validateFruitData data false with
  | error e =>
    rw [hval] at h
    simp [Prod.ext_iff] at h
  | ok u =>
    rw [hval] at h
    cases hfd : fruitFromDict data with
    | error e =>
      rw [hfd] at h
      simp [Prod.ext_iff] at h
    | ok m =>
      rw [hfd] at h
      dsimp only at h
      rw [repoCreate_eq db m hwf] at h
      simp only [Prod.ext_iff, Except.ok.injEq] at h
      obtain ⟨hf, hdb2⟩ := h
      subst hf
      subst hdb2
      refine ⟨rfl, hwf.1, ?_, ?_⟩
      · intro r hr
        have := (hwf.2.1 r hr).2
        omega
      · exact ⟨insertedRow db m, List.mem_append_right _ (List.mem_singleton.mpr rfl),
          rfl, rfl, rfl⟩

/-- Creation input for the C6 witness; it supplies an `id` of 999 that the
store must ignore. -/
def data6 : Dict :=
  [("name", Value.vStr "Pear"), ("category", Value.vStr "Citrus"),
   ("price", Value.vInt 1), ("quantity", Value.vInt 5), ("id", Value.vInt 999)]

/-- Witness for C6: creating on the empty store assigns id 1, not the
caller-supplied 999, and the stored row has equal timestamps. -/
theorem C6_create_assigns_id_witness :
    WF dbEmpty ∧ ∃ f db2, svcCreate dbEmpty data6 = (.ok f, db2) ∧
      (f.id = some ((dbEmpty.next_id : Int)) ∧ 0 < dbEmpty.next_id ∧
       (∀ r ∈ dbEmpty.rows, r.id ≠ dbEmpty.next_id) ∧
       ∃ r2 ∈ db2.rows, rowToFruit r2 = f ∧ r2.id = dbEmpty.next_id ∧
         r2.created_at = r2.updated_at) :=
  ⟨by decide, _, _, rfl, C6_create_assigns_id dbEmpty data6 _ _ (by decide) rfl⟩

theorem hasKey_false_lookup (d : Dict) (k : String) (h : Dict.hasKey d k = false) :
    Dict.lookup d k = none := by
  cases hl : Dict.lookup d k with
  | none => rfl
  | some v =>
    unfold Dict.hasKey at h
    rw [hl] at h
    cases h

theorem svcUpdate_eq_gen (db : DB) (r : Row) (i : Int) (data : Dict)
    (hwf : WF db) (hr : r ∈ db.rows) (hid : ((r.id : Int)) = i)
    (hval : validateFruitData data true = .ok ()) :
    svcUpdate db i data =
      match repoUpdate db (applyFruitFields (rowToFruit r) data) with
      | (.error e, db3) => (.error e, db3)
      | (.ok none, db3) => (.error (.valueError "Failed to update Fruit"), db3)
      | (.ok (some f), db3) => (.ok (some f), db3) := by
  subst hid
  unfold svcUpdate
  rw [if_neg (row_id_pos_int db r hwf hr)]
  unfold find_by_id
  rw [findRow_of_mem db r hwf.2.2.1 hr]
  simp only [Option.map_some']
  rw [hval]

theorem svcUpdate_val_error (db : DB) (r : Row) (i : Int) (data : Dict) (e : Err)
    (hwf : WF db) (hr : r ∈ db.rows) (hid : ((r.id : Int)) = i)
    (hval : validateFruitData data true = .error e) :
    svcUpdate db i data = (.error e, db) := by
  subst hid
  unfold svcUpdate
  rw [if_neg (row_id_pos_int db r hwf hr)]
  unfold find_by_id
  rw [findRow_of_mem db r hwf.2.2.1 hr]
  simp only [Option.map_some']
  rw [hval]

theorem repoUpdate_some (db : DB) (m : Fruit) (j : Int) (hmid : m.id = some j) :
    repoUpdate db m =
      (.ok (find_by_id { db with rows := db.rows.map (writeRow m db.time j) } j),
       { db with rows := db.rows.map (writeRow m db.time j) }) := by
  unfold repoUpdate
  rw [hmid]

theorem find_map_writeRow (db : DB) (r : Row) (m : Fruit)
    (hnd : (db.rows.map Row.id).Nodup) (hr : r ∈ db.rows) :
    find_by_id { db with rows := db.rows.map (writeRow m db.time ((r.id : Int))) } ((r.id : Int)) =
      some (rowToFruit (writeRow m db.time ((r.id : Int)) r)) := by
  unfold find_by_id findRow
  show ((db.rows.map (writeRow m db.time ((r.id : Int)))).find?
      (fun x => ((x.id : Int)) == ((r.id : Int)))).map rowToFruit = _
  rw [find_id_map _ (writeRow_id m db.time ((r.id : Int))) db.rows,
    find_id_of_mem db.rows r hnd hr]
  rfl

theorem applyFruitFields_id_none (m : Fruit) (data : Dict)
    (hnoid : Dict.lookup data "id" = none) :
    (applyFruitFields m data).id = m.id := by
  unfold applyFruitFields
  dsimp only
  rw [hnoid]

theorem applyFruitFields_keeps_name (m : Fruit) (data : Dict)
    (hk : Dict.hasKey data "name" = false) :
    (applyFruitFields m data).name = m.name := by
  unfold applyFruitFields
  dsimp only
  rw [hasKey_false_lookup data "name" hk]

theorem applyFruitFields_keeps_price (m : Fruit) (data : Dict)
    (hk : Dict.hasKey data "price" = false) :
    (applyFruitFields m data).price = m.price := by
  unfold applyFruitFields
  dsimp only
  rw [hasKey_false_lookup data "price" hk]
  rfl

theorem applyFruitFields_keeps_quantity (m : Fruit) (data : Dict)
    (hk : Dict.hasKey data "quantity" = false) :
    (applyFruitFields m data).quantity = m.quantity := by
  unfold applyFruitFields
  dsimp only
  rw [hasKey_false_lookup data "quantity" hk]
  rfl

theorem applyFruitFields_keeps_category (m : Fruit) (data : Dict)
    (hk : Dict.hasKey data "category" = false) :
    (applyFruitFields m data).category = m.category := by
  unfold applyFruitFields
  dsimp only
  rw [hasKey_false_lookup data "category" hk]

theorem applyFruitFields_keeps_image (m : Fruit) (data : Dict)
    (hk : Dict.hasKey data "image_path" = false) :
    (applyFruitFields m data).image_path = m.image_path := by
  unfold applyFruitFields
  dsimp only
  rw [hasKey_false_lookup data "image_path" hk]

/-- Fixture second row for the update claims. -/
def wRow2 : Row :=
  { id := 2, name := "Banana", price := 1, quantity := 50,
    category := "Tropical", image_path := Value.vNone,
    created_at := 0, updated_at := 0 }

/-- Fixture store with two rows, ids 1 and 2. -/
def wDB2 : DB := { rows := [wRow1, wRow2], next_id := 3, time := 5 }

/-- C2 counterexample: the claim says the id of the returned record equals
the id passed to `update` regardless of whether `fields` contains an `id`
key. On a store with rows 1 ("Apple") and 2 ("Banana"),
`update(1, \x7b"id": 2\x7d)` succeeds and returns the record with id 2 —
moreover that record now carries row 1's name, because the `setattr` loop
copied the `id` from `fields` onto the loaded record and the UPDATE
targeted row 2. -/
theorem C2_update_id_from_fields_counterexample :
    ∃ f db2, svcUpdate wDB2 1 [("id", Value.vInt 2)] = (.ok (some f), db2) ∧
      f.id = some 2 ∧ f.id ≠ some 1 ∧ f.name = "Apple" :=
  ⟨_, _, rfl, rfl, by decide, rfl⟩

/-- C2 (amended): provided `fields` contains no `id` key, `update(i,
fields)` keeps the identity: the returned record has id `i`, every row
with a different id survives unchanged, and the row with id `i` is the one
rewritten and returned. (When `fields` does contain `id`, the update
targets and returns the record named by `fields["id"]` instead.) -/
theorem C2_update_id_not_from_fields (db : DB) (r : Row) (i : Int) (data : Dict)
    (f : Fruit) (db2 : DB)
    (hwf : WF db) (hr : r ∈ db.rows) (hid : ((r.id : Int)) = i)
    (hnoid : Dict.lookup data "id" = none)
    (h : svcUpdate db i data = (.ok (some f), db2)) :
    f.id = some i ∧
    (∀ x ∈ db.rows, ((x.id : Int)) ≠ i → x ∈ db2.rows) ∧
    ∃ r2 ∈ db2.rows, ((r2.id : Int)) = i ∧ rowToFruit r2 = f := by
  subst hid
  cases hval : validateFruitData data true with
  | error e =>
    rw [svcUpdate_val_error db r ((r.id : Int)) data e hwf hr rfl hval] at h
    simp [Prod.ext_iff] at h
  | ok u =>
    cases u
    rw [svcUpdate_eq_gen db r ((r.id : Int)) data hwf hr rfl hval] at h
    have hmid : (applyFruitFields (rowToFruit r) data).id = some ((r.id : Int)) :=
      applyFruitFields_id_none (rowToFruit r) data hnoid
    rw [repoUpdate_some db (applyFruitFields (rowToFruit r) data) ((r.id : Int)) hmid] at h
    rw [find_map_writeRow db r (applyFruitFields (rowToFruit r) data) hwf.2.2.1 hr] at h
    simp only [Prod.ext_iff, Except.ok.injEq, Option.some.injEq] at h
    obtain ⟨hf, hdb2⟩ := h
    subst hdb2
    refine ⟨?_, ?_, ?_⟩
    · rw [← hf]
      show some (((writeRow (applyFruitFields (rowToFruit r) data) db.time ((r.id : Int)) r).id : Int)) = _
      rw [writeRow_id]
    · intro x hx hxne
      have hfix : writeRow (applyFruitFields (rowToFruit r) data) db.time ((r.id : Int)) x = x := by
        unfold writeRow
        rw [if_neg (by simpa using hxne)]
      exact hfix ▸ List.mem_map_of_mem _ hx
    · refine ⟨writeRow (applyFruitFields (rowToFruit r) data) db.time ((r.id : Int)) r,
        List.mem_map_of_mem _ hr, ?_, hf⟩
      rw [writeRow_id]

/-- Witness for the amended C2: updating only the name of row 1 keeps the
returned id 1 and leaves row 2 in place. -/
theorem C2_update_id_not_from_fields_witness :
    (WF wDB2 ∧ wRow1 ∈ wDB2.rows ∧ ((wRow1.id : Int)) = 1 ∧
      Dict.lookup [("name", Value.vStr "Kiwi")] "id" = none) ∧
    ∃ f db2, svcUpdate wDB2 1 [("name", Value.vStr "Kiwi")] = (.ok (some f), db2) ∧
      (f.id = some 1 ∧
       (∀ x ∈ wDB2.rows, ((x.id : Int)) ≠ 1 → x ∈ db2.rows) ∧
       ∃ r2 ∈ db2.rows, ((r2.id : Int)) = 1 ∧ rowToFruit r2 = f) :=
  ⟨⟨by decide, List.mem_cons_self wRow1 [wRow2], rfl, rfl⟩,
   _, _, rfl,
   C2_update_id_not_from_fields wDB2 wRow1 1 [("name", Value.vStr "Kiwi")] _ _
     (by decide) (List.mem_cons_self wRow1 [wRow2]) rfl rfl rfl⟩

/-- C3: after a successful `update(i, fields)`, the row with id `i` agrees
with its old value on `id`, `created_at` and every updatable field
(`name`, `price`, `quantity`, `category`, `image_path`) that is not a key
of `fields`. (`updated_at` is outside the scope of the claim: the data
model requires every mutation to refresh it.) -/
theorem C3_update_preserves_unlisted_fields (db : DB) (r : Row) (i : Int) (data : Dict)
    (f : Fruit) (db2 : DB)
    (hwf : WF db) (hr : r ∈ db.rows) (hid : ((r.id : Int)) = i)
    (h : svcUpdate db i data = (.ok (some f), db2)) :
    ∃ r2 ∈ db2.rows, r2.id = r.id ∧ r2.created_at = r.created_at ∧
      (Dict.hasKey data "name" = false → r2.name = r.name) ∧
      (Dict.hasKey data "price" = false → r2.price = r.price) ∧
      (Dict.hasKey data "quantity" = false → r2.quantity = r.quantity) ∧
      (Dict.hasKey data "category" = false → r2.category = r.category) ∧
      (Dict.hasKey data "image_path" = false → r2.image_path = r.image_path) := by
  subst hid
  cases hval : validateFruitData data true with
  | error e =>
    rw [svcUpdate_val_error db r ((r.id : Int)) data e hwf hr rfl hval] at h
    simp [Prod.ext_iff] at h
  | ok u =>
    cases u
    rw [svcUpdate_eq_gen db r ((r.id : Int)) data hwf hr rfl hval] at h
    cases hmid : (applyFruitFields (rowToFruit r) data).id with
    | none =>
      rw [repoUpdate] at h
      rw [hmid] at h
      simp [Prod.ext_iff] at h
    | some j =>
      rw [repoUpdate_some db (applyFruitFields (rowToFruit r) data) j hmid] at h
      have hdb2 : db2 = { db with rows := db.rows.map (writeRow (applyFruitFields (rowToFruit r) data) db.time j) } := by
        cases hfind : find_by_id { db with rows := db.rows.map (writeRow (applyFruitFields (rowToFruit r) data) db.time j) } j with
        | none =>
          rw [hfind] at h
          simp [Prod.ext_iff] at h
        | some f2 =>
          rw [hfind] at h
          exact ((Prod.ext_iff.mp h).2).symm
      subst hdb2
      refine ⟨writeRow (applyFruitFields (rowToFruit r) data) db.time j r,
        List.mem_map_of_mem _ hr, writeRow_id _ _ _ _, writeRow_created _ _ _ _,
        ?_, ?_, ?_, ?_, ?_⟩ <;> intro hk
      · unfold writeRow
        split
        · exact applyFruitFields_keeps_name (rowToFruit r) data hk
        · rfl
      · unfold writeRow
        split
        · exact applyFruitFields_keeps_price (rowToFruit r) data hk
        · rfl
      · unfold writeRow
        split
        · exact applyFruitFields_keeps_quantity (rowToFruit r) data hk
        · rfl
      · unfold writeRow
        split
        · exact applyFruitFields_keeps_category (rowToFruit r) data hk
        · rfl
      · unfold writeRow
        split
        · exact applyFruitFields_keeps_image (rowToFruit r) data hk
        · rfl

/-- Witness for C3: updating only the quantity of row 1 leaves its name,
price, category, image path and `created_at` as they were. -/
theorem C3_update_preserves_unlisted_fields_witness :
    (WF wDB2 ∧ wRow1 ∈ wDB2.rows ∧ ((wRow1.id : Int)) = 1) ∧
    ∃ f db2, svcUpdate wDB2 1 [("quantity", Value.vInt 7)] = (.ok (some f), db2) ∧
      ∃ r2 ∈ db2.rows, r2.id = wRow1.id ∧ r2.created_at = wRow1.created_at ∧
        (Dict.hasKey [("quantity", Value.vInt 7)] "name" = false → r2.name = wRow1.name) ∧
        (Dict.hasKey [("quantity", Value.vInt 7)] "price" = false → r2.price = wRow1.price) ∧
        (Dict.hasKey [("quantity", Value.vInt 7)] "quantity" = false → r2.quantity = wRow1.quantity) ∧
        (Dict.hasKey [("quantity", Value.vInt 7)] "category" = false → r2.category = wRow1.category) ∧
        (Dict.hasKey [("quantity", Value.vInt 7)] "image_path" = false → r2.image_path = wRow1.image_path) :=
  ⟨⟨by decide, List.mem_cons_self wRow1 [wRow2], rfl⟩,
   _, _, rfl,
   C3_update_preserves_unlisted_fields wDB2 wRow1 1 [("quantity", Value.vInt 7)] _ _
     (by decide) (List.mem_cons_self wRow1 [wRow2]) rfl rfl⟩

/-! Lemmas about the creation validation chain, for C5. -/

theorem checkRequired_err_form (data : Dict) (e : Err)
    (h : checkRequired data = .error e) : ∃ msg, e = Err.valueError msg := by
  unfold checkRequired at h
  split at h
  · cases h
  · cases h
    exact ⟨_, rfl⟩

theorem checkName_err_form (data : Dict) (e : Err)
    (h : checkName data = .error e) : ∃ msg, e = Err.valueError msg := by
  unfold checkName at h
  split at h
  · cases h
  · split at h
    · cases h
      exact ⟨_, rfl⟩
    · cases h
  · cases h
    exact ⟨_, rfl⟩

theorem checkCategory_err_form (data : Dict) (e : Err)
    (h : checkCategory data = .error e) : ∃ msg, e = Err.valueError msg := by
  unfold checkCategory at h
  split at h
  · cases h
  · split at h
    · cases h
      exact ⟨_, rfl⟩
    · cases h
  · cases h
    exact ⟨_, rfl⟩

theorem checkPrice_err_form (data : Dict) (e : Err)
    (h : checkPrice data = .error e) : ∃ msg, e = Err.valueError msg := by
  unfold checkPrice at h
  split at h
  · cases h
  · split at h
    · cases h
      exact ⟨_, rfl⟩
    · split at h
      · cases h
        exact ⟨_, rfl⟩
      · cases h

theorem checkQuantity_err_form (data : Dict) (e : Err)
    (h : checkQuantity data = .error e) : ∃ msg, e = Err.valueError msg := by
  unfold checkQuantity at h
  split at h
  · cases h
  · split at h
    · cases h
      exact ⟨_, rfl⟩
    · split at h
      · cases h
        exact ⟨_, rfl⟩
      · cases h

theorem validate_err_form (data : Dict) (u : Bool) (e : Err)
    (h : validateFruitData data u = .error e) : ∃ msg, e = Err.valueError msg := by
  unfold validateFruitData at h
  cases hreq : (if u then (.ok () : Except Err Unit) else checkRequired data) with
  | error e1 =>
    rw [hreq] at h
    cases h
    cases u with
    | true => cases hreq
    | false => exact checkRequired_err_form data _ hreq
  | ok u1 =>
    rw [hreq] at h
    cases hn : checkName data with
    | error e1 =>
      rw [hn] at h
      cases h
      exact checkName_err_form data _ hn
    | ok u2 =>
      rw [hn] at h
      cases hc : checkCategory data with
      | error e1 =>
        rw [hc] at h
        cases h
        exact checkCategory_err_form data _ hc
      | ok u3 =>
        rw [hc] at h
        cases hp : checkPrice data with
        | error e1 =>
          rw [hp] at h
          cases h
          exact checkPrice_err_form data _ hp
        | ok u4 =>
          rw [hp] at h
          exact checkQuantity_err_form data _ h

theorem checkRequired_ok_means (data : Dict) (h : checkRequired data = .ok ()) :
    ∀ k ∈ requiredFields, Dict.hasKey data k = true := by
  unfold checkRequired at h
  split at h
  · rename_i hemp
    intro k hk
    by_contra hkk
    have hmem : k ∈ requiredFields.filter (fun f => !(Dict.hasKey data f)) :=
      List.mem_filter.mpr ⟨hk, by simp [Bool.not_eq_true] at hkk ⊢; exact hkk⟩
    rw [List.isEmpty_iff] at hemp
    rw [hemp] at hmem
    cases hmem
  · cases h

theorem checkName_ok_means (data : Dict) (h : checkName data = .ok ()) :
    ∀ v, Dict.lookup data "name" = some v → ∃ s, v = Value.vStr s ∧ 2 ≤ s.length := by
  intro v hv
  unfold checkName at h
  rw [hv] at h
  cases v with
  | vStr s =>
    dsimp only at h
    split at h
    · cases h
    · rename_i hge
      exact ⟨s, rfl, by omega⟩
  | vInt n => dsimp only at h; cases h
  | vFloat q => dsimp only at h; cases h
  | vNone => dsimp only at h; cases h

theorem checkCategory_ok_means (data : Dict) (h : checkCategory data = .ok ()) :
    ∀ v, Dict.lookup data "category" = some v → ∃ s, v = Value.vStr s ∧ 2 ≤ s.length := by
  intro v hv
  unfold checkCategory at h
  rw [hv] at h
  cases v with
  | vStr s =>
    dsimp only at h
    split at h
    · cases h
    · rename_i hge
      exact ⟨s, rfl, by omega⟩
  | vInt n => dsimp only at h; cases h
  | vFloat q => dsimp only at h; cases h
  | vNone => dsimp only at h; cases h

theorem checkPrice_ok_means (data : Dict) (h : checkPrice data = .ok ()) :
    ∀ v, Dict.lookup data "price" = some v → ∃ q, pyFloat v = some q ∧ 0 ≤ q := by
  intro v hv
  unfold checkPrice at h
  rw [hv] at h
  dsimp only at h
  cases hq : pyFloat v with
  | none =>
    rw [hq] at h
    cases h
  | some q =>
    rw [hq] at h
    dsimp only at h
    split at h
    · cases h
    · rename_i hlt
      exact ⟨q, rfl, not_lt.mp hlt⟩

theorem checkQuantity_ok_means (data : Dict) (h : checkQuantity data = .ok ()) :
    ∀ v, Dict.lookup data "quantity" = some v → ∃ n, pyInt v = some n ∧ 0 ≤ n := by
  intro v hv
  unfold checkQuantity at h
  rw [hv] at h
  dsimp only at h
  cases hn : pyInt v with
  | none =>
    rw [hn] at h
    cases h
  | some n =>
    rw [hn] at h
    dsimp only at h
    split at h
    · cases h
    · rename_i hlt
      exact ⟨n, rfl, not_lt.mp hlt⟩

theorem validate_ok_parts (data : Dict) (h : validateFruitData data false = .ok ()) :
    checkRequired data = .ok () ∧ checkName data = .ok () ∧ checkCategory data = .ok () ∧
    checkPrice data = .ok () ∧ checkQuantity data = .ok () := by
  unfold validateFruitData at h
  cases hreq : checkRequired data with
  | error e1 =>
    rw [if_neg (by simp), hreq] at h
    cases h
  | ok u1 =>
    cases u1
    rw [if_neg (by simp), hreq] at h
    cases hn : checkName data with
    | error e1 => rw [hn] at h; cases h
    | ok u2 =>
      cases u2
      rw [hn] at h
      cases hc : checkCategory data with
      | error e1 => rw [hc] at h; cases h
      | ok u3 =>
        cases u3
        rw [hc] at h
        cases hp : checkPrice data with
        | error e1 => rw [hp] at h; cases h
        | ok u4 =>
          cases u4
          rw [hp] at h
          exact ⟨rfl, rfl, rfl, rfl, h⟩

/-- Badness of a creation input as the code actually checks it: a required
field is missing, or a present name/category is not a string of at least 2
characters, or a present price does not convert through Python float() to
a non-negative number, or a present quantity does not convert through
Python int() — which truncates floats toward zero — to a non-negative
integer. -/
def BadCreateInput (data : Dict) : Prop :=
  (∃ k ∈ requiredFields, Dict.lookup data k = none) ∨
  (∃ v, Dict.lookup data "name" = some v ∧ ∀ s, v = Value.vStr s → s.length < 2) ∨
  (∃ v, Dict.lookup data "category" = some v ∧ ∀ s, v = Value.vStr s → s.length < 2) ∨
  (∃ v, Dict.lookup data "price" = some v ∧ ∀ q, pyFloat v = some q → q < 0) ∨
  (∃ v, Dict.lookup data "quantity" = some v ∧ ∀ n, pyInt v = some n → n < 0)

/-- Badness of a creation input as claim C5 states it, over the
mathematical value of each datum: in particular "quantity not a
non-negative integer" rules out any quantity whose value is not a
non-negative whole number. -/
def ClaimC5Bad (data : Dict) : Prop :=
  (∃ k ∈ requiredFields, Dict.lookup data k = none) ∨
  (∃ v, Dict.lookup data "name" = some v ∧ ∀ s, v = Value.vStr s → s.length < 2) ∨
  (∃ v, Dict.lookup data "category" = some v ∧ ∀ s, v = Value.vStr s → s.length < 2) ∨
  (∃ v, Dict.lookup data "price" = some v ∧ ¬ ∃ q : Rat, pyFloat v = some q ∧ 0 ≤ q) ∨
  (∃ v, Dict.lookup data "quantity" = some v ∧ ¬ ∃ n : Nat, pyFloat v = some ((n : Rat)))

/-- Creation input for the C5 counterexample: all fields well-formed
except that the quantity is the float 7/2, which is not a non-negative
integer but passes the int()-based validation by truncation. -/
def data5 : Dict :=
  [("name", Value.vStr "Apple"), ("category", Value.vStr "Fresh Fruits"),
   ("price", Value.vInt 1), ("quantity", Value.vFloat (mkRat 7 2))]

/-- C5 counterexample: the input `data5` violates the claim's value
constraint (its quantity 7/2 is not a non-negative integer), yet `create`
does not raise — it succeeds and a write reaches the storage layer,
because the validation applies Python `int()`, which truncates 7/2 to 3
and accepts it, while the raw 7/2 is inserted. -/
theorem C5_validation_counterexample :
    ClaimC5Bad data5 ∧
    ∃ f db2, svcCreate dbEmpty data5 = (.ok f, db2) ∧ db2.rows ≠ dbEmpty.rows := by
  constructor
  · refine Or.inr (Or.inr (Or.inr (Or.inr ⟨Value.vFloat (mkRat 7 2), rfl, ?_⟩)))
    rintro ⟨n, hn⟩
    simp only [pyFloat, Option.some.injEq] at hn
    have hd := congrArg Rat.den hn
    rw [Rat.den_natCast] at hd
    exact absurd hd (by decide)
  · exact ⟨_, _, rfl, by decide⟩

/-- C5 (amended): for every creation input the code's validation rejects —
required field missing, name/category not a string of at least 2
characters, price not float()-convertible to a non-negative number, or
quantity not int()-convertible (floats truncating) to a non-negative
integer — `create` raises `ValueError` and no write reaches the storage
layer: the store is exactly what it was. -/
theorem C5_validation_blocks_write (db : DB) (data : Dict) (hbad : BadCreateInput data) :
    (∃ msg, (svcCreate db data).1 = .error (.valueError msg)) ∧
    (svcCreate db data).2 = db := by
  have hval : ∃ msg, validateFruitData data false = .error (.valueError msg) := by
    cases hv : validateFruitData data false with
    | error e =>
      obtain ⟨msg, rfl⟩ := validate_err_form data false e hv
      exact ⟨msg, rfl⟩
    | ok u =>
      cases u
      exfalso
      obtain ⟨hreq, hname, hcat, hprice, hquant⟩ := validate_ok_parts data hv
      rcases hbad with ⟨k, hk, hnone⟩ | ⟨v, hv2, hbadv⟩ | ⟨v, hv2, hbadv⟩ | ⟨v, hv2, hbadv⟩ | ⟨v, hv2, hbadv⟩
      · have := checkRequired_ok_means data hreq k hk
        rw [Dict.hasKey, hnone] at this
        cases this
      · obtain ⟨s, rfl, hlen⟩ := checkName_ok_means data hname v hv2
        exact absurd (hbadv s rfl) (by omega)
      · obtain ⟨s, rfl, hlen⟩ := checkCategory_ok_means data hcat v hv2
        exact absurd (hbadv s rfl) (by omega)
      · obtain ⟨q, hq, hq0⟩ := checkPrice_ok_means data hprice v hv2
        exact absurd (hbadv q hq) (not_lt.mpr hq0)
      · obtain ⟨n, hn, hn0⟩ := checkQuantity_ok_means data hquant v hv2
        exact absurd (hbadv n hn) (not_lt.mpr hn0)
  obtain ⟨msg, hmsg⟩ := hval
  unfold svcCreate
  rw [hmsg]
  exact ⟨⟨msg, rfl⟩, rfl⟩

/-- Witness for the amended C5: a creation input with a negative quantity
is rejected and the store is untouched. -/
theorem C5_validation_blocks_write_witness :
    BadCreateInput [("name", Value.vStr "Apple"), ("category", Value.vStr "Fresh Fruits"),
      ("price", Value.vInt 1), ("quantity", Value.vInt (-4))] ∧
    ((∃ msg, (svcCreate dbEmpty [("name", Value.vStr "Apple"), ("category", Value.vStr "Fresh Fruits"),
        ("price", Value.vInt 1), ("quantity", Value.vInt (-4))]).1 = .error (.valueError msg)) ∧
     (svcCreate dbEmpty [("name", Value.vStr "Apple"), ("category", Value.vStr "Fresh Fruits"),
        ("price", Value.vInt 1), ("quantity", Value.vInt (-4))]).2 = dbEmpty) := by
  have hbad : BadCreateInput [("name", Value.vStr "Apple"), ("category", Value.vStr "Fresh Fruits"),
      ("price", Value.vInt 1), ("quantity", Value.vInt (-4))] := by
    refine Or.inr (Or.inr (Or.inr (Or.inr ⟨Value.vInt (-4), rfl, ?_⟩)))
    intro n hn
    cases hn
    decide
  exact ⟨hbad, C5_validation_blocks_write dbEmpty _ hbad⟩

/-! Machinery for C9: shapes of the post-states and invariant preservation. -/

theorem repoUpdate_snd_char (db : DB) (m : Fruit) :
    (repoUpdate db m).2 = db ∨
    ∃ j, (repoUpdate db m).2 = { db with rows := db.rows.map (writeRow m db.time j) } := by
  unfold repoUpdate
  cases m.id with
  | none => exact Or.inl rfl
  | some j => exact Or.inr ⟨j, rfl⟩

theorem svcUpdate_snd_char (db : DB) (i : Int) (data : Dict) :
    (svcUpdate db i data).2 = db ∨
    ∃ m j, (svcUpdate db i data).2 = { db with rows := db.rows.map (writeRow m db.time j) } := by
  unfold svcUpdate
  split
  · exact Or.inl rfl
  · split
    · exact Or.inl rfl
    · rename_i sc existing heqex
      split
      · exact Or.inl rfl
      · dsimp only
        rcases hchar : repoUpdate db (applyFruitFields existing data) with ⟨res, db3⟩
        have h3 := repoUpdate_snd_char db (applyFruitFields existing data)
        rw [hchar] at h3
        have h4 : db3 = db ∨ ∃ j, db3 = { db with rows := db.rows.map (writeRow (applyFruitFields existing data) db.time j) } := h3
        cases res with
        | error e =>
          rcases h4 with h4 | ⟨j, h4⟩
          · exact Or.inl h4
          · exact Or.inr ⟨_, j, h4⟩
        | ok o =>
          cases o with
          | none =>
            rcases h4 with h4 | ⟨j, h4⟩
            · exact Or.inl h4
            · exact Or.inr ⟨_, j, h4⟩
          | some f =>
            rcases h4 with h4 | ⟨j, h4⟩
            · exact Or.inl h4
            · exact Or.inr ⟨_, j, h4⟩

theorem svcUpdateStock_snd_char (db : DB) (i : Int) (q : Int) :
    (svcUpdateStock db i q).2 = db ∨
    (svcUpdateStock db i q).2 = { db with rows := db.rows.map (setStock i ((q : Rat)) db.time) } := by
  unfold svcUpdateStock
  split
  · exact Or.inl rfl
  · split
    · exact Or.inl rfl
    · split
      · exact Or.inl rfl
      · exact Or.inr rfl

theorem svcAdjustStock_snd_char (db : DB) (i : Int) (d : Int) :
    (svcAdjustStock db i d).2 = db ∨
    ∃ q, (svcAdjustStock db i d).2 = { db with rows := db.rows.map (setStock i q db.time) } := by
  unfold svcAdjustStock repoAdjustStock
  split
  · exact Or.inl rfl
  · split
    · exact Or.inl rfl
    · dsimp only
      split
      · exact Or.inl rfl
      · exact Or.inr ⟨_, rfl⟩

theorem svcCreate_snd_char (db : DB) (data : Dict) :
    (svcCreate db data).2 = db ∨
    ∃ m, (svcCreate db data).2 =
      { db with rows := db.rows ++ [insertedRow db m], next_id := db.next_id + 1 } := by
  unfold svcCreate
  split
  · exact Or.inl rfl
  · split
    · exact Or.inl rfl
    · rename_i sc m heqm
      dsimp only
      split
      · exact Or.inr ⟨m, rfl⟩
      · exact Or.inr ⟨m, rfl⟩

theorem svcDelete_snd_char (db : DB) (i : Int) :
    (svcDelete db i).2 = db ∨
    (svcDelete db i).2 = { db with rows := db.rows.filter (fun r => !(((r.id : Int)) == i)) } := by
  unfold svcDelete
  split
  · exact Or.inl rfl
  · split
    · exact Or.inr rfl
    · exact Or.inl rfl

theorem WF_map_writeRow (db : DB) (m : Fruit) (j : Int) (hwf : WF db) :
    WF { db with rows := db.rows.map (writeRow m db.time j) } := by
  obtain ⟨h1, h2, h3, h4⟩ := hwf
  refine ⟨h1, ?_, ?_, ?_⟩
  · intro x hx
    obtain ⟨y, hy, rfl⟩ := List.mem_map.mp hx
    rw [writeRow_id]
    exact h2 y hy
  · rw [map_id_of_preserve _ (writeRow_id m db.time j)]
    exact h3
  · intro x hx
    obtain ⟨y, hy, rfl⟩ := List.mem_map.mp hx
    unfold writeRow
    split
    · exact ⟨le_trans (h4 y hy).1 (h4 y hy).2, le_refl _⟩
    · exact h4 y hy

theorem WF_filter (db : DB) (p : Row → Bool) (hwf : WF db) :
    WF { db with rows := db.rows.filter p } := by
  obtain ⟨h1, h2, h3, h4⟩ := hwf
  refine ⟨h1, ?_, ?_, ?_⟩
  · intro x hx
    exact h2 x (List.mem_of_mem_filter hx)
  · exact ((List.filter_sublist db.rows).map Row.id).nodup h3
  · intro x hx
    exact h4 x (List.mem_of_mem_filter hx)

theorem WF_append_inserted (db : DB) (m : Fruit) (hwf : WF db) :
    WF { db with rows := db.rows ++ [insertedRow db m], next_id := db.next_id + 1 } := by
  obtain ⟨h1, h2, h3, h4⟩ := hwf
  refine ⟨?_, ?_, ?_, ?_⟩
  · dsimp only
    omega
  · intro x hx
    dsimp only
    rcases List.mem_append.mp hx with hx | hx
    · have := h2 x hx
      omega
    · rw [List.mem_singleton.mp hx]
      dsimp only [insertedRow]
      omega
  · dsimp only
    rw [List.map_append]
    refine List.Nodup.append h3 (List.nodup_singleton _) ?_
    intro a ha hb
    rw [List.mem_map] at ha
    obtain ⟨y, hy, rfl⟩ := ha
    have hlt := (h2 y hy).2
    simp only [List.map_cons, List.map_nil, List.mem_singleton] at hb
    have hins : (insertedRow db m).id = db.next_id := rfl
    rw [hins] at hb
    omega
  · intro x hx
    dsimp only
    rcases List.mem_append.mp hx with hx | hx
    · exact h4 x hx
    · rw [List.mem_singleton.mp hx]
      exact ⟨le_refl _, le_refl _⟩

/-- Timestamp part of the data-model invariant:
`updated_at ≥ created_at` for every stored record. -/
def TSInv (db : DB) : Prop :=
  ∀ r ∈ db.rows, r.created_at ≤ r.updated_at

theorem WF_tsInv (db : DB) (h : WF db) : TSInv db :=
  fun r hr => (h.2.2.2 r hr).1

theorem found_setStock_refresh (db : DB) (i : Int) (q : Rat) (r2 : Row)
    (hfound : findRow { db with rows := db.rows.map (setStock i q db.time) } i = some r2) :
    r2 ∈ db.rows.map (setStock i q db.time) ∧ r2.updated_at = db.time := by
  have hmem := List.mem_of_find?_eq_some hfound
  have hp := List.find?_some hfound
  refine ⟨hmem, ?_⟩
  obtain ⟨x, hx, rfl⟩ := List.mem_map.mp hmem
  rw [setStock_id] at hp
  unfold setStock
  rw [if_pos hp]

theorem found_writeRow_refresh (db : DB) (m : Fruit) (j : Int) (r2 : Row)
    (hfound : findRow { db with rows := db.rows.map (writeRow m db.time j) } j = some r2) :
    r2 ∈ db.rows.map (writeRow m db.time j) ∧ r2.updated_at = db.time := by
  have hmem := List.mem_of_find?_eq_some hfound
  have hp := List.find?_some hfound
  refine ⟨hmem, ?_⟩
  obtain ⟨x, hx, rfl⟩ := List.mem_map.mp hmem
  rw [writeRow_id] at hp
  unfold writeRow
  rw [if_pos hp]

theorem svcUpdateStock_refresh (db : DB) (i : Int) (q : Int) (f : Fruit) (db2 : DB)
    (h : svcUpdateStock db i q = (.ok (some f), db2)) :
    ∃ r2 ∈ db2.rows, rowToFruit r2 = f ∧ r2.updated_at = db.time := by
  unfold svcUpdateStock at h
  split at h
  · simp [Prod.ext_iff] at h
  · split at h
    · simp [Prod.ext_iff] at h
    · split at h
      · simp [Prod.ext_iff] at h
      · dsimp only [update_stock] at h
        cases hfind : find_by_id { db with rows := db.rows.map (setStock i ((q : Rat)) db.time) } i with
        | none =>
          rw [hfind] at h
          simp [Prod.ext_iff] at h
        | some f2 =>
          rw [hfind] at h
          simp only [Prod.ext_iff, Except.ok.injEq, Option.some.injEq] at h
          obtain ⟨hf, hdb2⟩ := h
          unfold find_by_id at hfind
          obtain ⟨r2, hr2, hr2f⟩ := Option.map_eq_some'.mp hfind
          obtain ⟨hmem, hupd⟩ := found_setStock_refresh db i ((q : Rat)) r2 hr2
          exact ⟨r2, by rw [← hdb2]; exact hmem, by rw [hr2f, hf], hupd⟩

theorem svcAdjustStock_refresh (db : DB) (i : Int) (d : Int) (f : Fruit) (db2 : DB)
    (h : svcAdjustStock db i d = (.ok (some f), db2)) :
    ∃ r2 ∈ db2.rows, rowToFruit r2 = f ∧ r2.updated_at = db.time := by
  unfold svcAdjustStock repoAdjustStock at h
  split at h
  · simp [Prod.ext_iff] at h
  · split at h
    · simp [Prod.ext_iff] at h
    · rename_i sc fruit heqf
      dsimp only at h
      split at h
      · simp [Prod.ext_iff] at h
      · dsimp only [update_stock] at h
        cases hfind : find_by_id
            { db with rows := db.rows.map (setStock i (fruit.quantity + ((d : Rat))) db.time) } i with
        | none =>
          rw [hfind] at h
          simp [Prod.ext_iff] at h
        | some f2 =>
          rw [hfind] at h
          simp only [Prod.ext_iff, Except.ok.injEq, Option.some.injEq] at h
          obtain ⟨hf, hdb2⟩ := h
          unfold find_by_id at hfind
          obtain ⟨r2, hr2, hr2f⟩ := Option.map_eq_some'.mp hfind
          obtain ⟨hmem, hupd⟩ := found_setStock_refresh db i (fruit.quantity + ((d : Rat))) r2 hr2
          exact ⟨r2, by rw [← hdb2]; exact hmem, by rw [hr2f, hf], hupd⟩

theorem svcUpdate_refresh (db : DB) (i : Int) (data : Dict) (f : Fruit) (db2 : DB)
    (h : svcUpdate db i data = (.ok (some f), db2)) :
    ∃ r2 ∈ db2.rows, rowToFruit r2 = f ∧ r2.updated_at = db.time := by
  unfold svcUpdate at h
  split at h
  · simp [Prod.ext_iff] at h
  · split at h
    · simp [Prod.ext_iff] at h
    · rename_i sc existing heqex
      split at h
      · simp [Prod.ext_iff] at h
      · dsimp only at h
        cases hmid : (applyFruitFields existing data).id with
        | none =>
          unfold repoUpdate at h
          rw [hmid] at h
          simp [Prod.ext_iff] at h
        | some j =>
          rw [repoUpdate_some db (applyFruitFields existing data) j hmid] at h
          cases hfind : find_by_id
              { db with rows := db.rows.map (writeRow (applyFruitFields existing data) db.time j) } j with
          | none =>
            rw [hfind] at h
            simp [Prod.ext_iff] at h
          | some f2 =>
            rw [hfind] at h
            simp only [Prod.ext_iff, Except.ok.injEq, Option.some.injEq] at h
            obtain ⟨hf, hdb2⟩ := h
            unfold find_by_id at hfind
            obtain ⟨r2, hr2, hr2f⟩ := Option.map_eq_some'.mp hfind
            obtain ⟨hmem, hupd⟩ :=
              found_writeRow_refresh db (applyFruitFields existing data) j r2 hr2
            exact ⟨r2, by rw [← hdb2]; exact hmem, by rw [hr2f, hf], hupd⟩

/-- C9: every mutating operation that succeeds on a record — the full
`update`, `updateStock`, and the pure stock adjustment `adjustStock` —
refreshes the stored record's `updated_at` to the current clock, and the
invariant `updated_at ≥ created_at` holds for every stored record after
every operation (create, update, updateStock, adjustStock, delete). -/
theorem C9_updated_at_refresh_and_invariant (db : DB) (hwf : WF db) :
    (∀ i data f db2, svcUpdate db i data = (.ok (some f), db2) →
       ∃ r2 ∈ db2.rows, rowToFruit r2 = f ∧ r2.updated_at = db.time) ∧
    (∀ i q f db2, svcUpdateStock db i q = (.ok (some f), db2) →
       ∃ r2 ∈ db2.rows, rowToFruit r2 = f ∧ r2.updated_at = db.time) ∧
    (∀ i d f db2, svcAdjustStock db i d = (.ok (some f), db2) →
       ∃ r2 ∈ db2.rows, rowToFruit r2 = f ∧ r2.updated_at = db.time) ∧
    (∀ i data, TSInv (svcUpdate db i data).2) ∧
    (∀ i q, TSInv (svcUpdateStock db i q).2) ∧
    (∀ i d, TSInv (svcAdjustStock db i d).2) ∧
    (∀ data, TSInv (svcCreate db data).2) ∧
    (∀ i, TSInv (svcDelete db i).2) := by
  refine ⟨fun i data f db2 h => svcUpdate_refresh db i data f db2 h,
    fun i q f db2 h => svcUpdateStock_refresh db i q f db2 h,
    fun i d f db2 h => svcAdjustStock_refresh db i d f db2 h,
    ?_, ?_, ?_, ?_, ?_⟩
  · intro i data
    rcases svcUpdate_snd_char db i data with hc | ⟨m, j, hc⟩ <;> rw [hc]
    · exact WF_tsInv db hwf
    · exact WF_tsInv _ (WF_map_writeRow db m j hwf)
  · intro i q
    rcases svcUpdateStock_snd_char db i q with hc | hc <;> rw [hc]
    · exact WF_tsInv db hwf
    · exact WF_tsInv _ (WF_map_setStock db i ((q : Rat)) hwf)
  · intro i d
    rcases svcAdjustStock_snd_char db i d with hc | ⟨q, hc⟩ <;> rw [hc]
    · exact WF_tsInv db hwf
    · exact WF_tsInv _ (WF_map_setStock db i q hwf)
  · intro data
    rcases svcCreate_snd_char db data with hc | ⟨m, hc⟩ <;> rw [hc]
    · exact WF_tsInv db hwf
    · exact WF_tsInv _ (WF_append_inserted db m hwf)
  · intro i
    rcases svcDelete_snd_char db i with hc | hc <;> rw [hc]
    · exact WF_tsInv db hwf
    · exact WF_tsInv _ (WF_filter db _ hwf)

/-- Witness for C9 on the two-row fixture store. -/
theorem C9_updated_at_refresh_and_invariant_witness :
    WF wDB2 ∧
    ((∀ i data f db2, svcUpdate wDB2 i data = (.ok (some f), db2) →
       ∃ r2 ∈ db2.rows, rowToFruit r2 = f ∧ r2.updated_at = wDB2.time) ∧
     (∀ i q f db2, svcUpdateStock wDB2 i q = (.ok (some f), db2) →
       ∃ r2 ∈ db2.rows, rowToFruit r2 = f ∧ r2.updated_at = wDB2.time) ∧
     (∀ i d f db2, svcAdjustStock wDB2 i d = (.ok (some f), db2) →
       ∃ r2 ∈ db2.rows, rowToFruit r2 = f ∧ r2.updated_at = wDB2.time) ∧
     (∀ i data, TSInv (svcUpdate wDB2 i data).2) ∧
     (∀ i q, TSInv (svcUpdateStock wDB2 i q).2) ∧
     (∀ i d, TSInv (svcAdjustStock wDB2 i d).2) ∧
     (∀ data, TSInv (svcCreate wDB2 data).2) ∧
     (∀ i, TSInv (svcDelete wDB2 i).2)) :=
  ⟨by decide, C9_updated_at_refresh_and_invariant wDB2 (by decide)⟩

end FruitStore
